import Mathlib

/-!
Verification of the DZI (deep-zoom image) tile-pyramid generator
(`DZIGenerator` in `n.py`) and its companion diagnostic tool
(`diganosis.py`).

The Python code is shallowly embedded: pure geometry (level planning,
tile-grid computation, crop clamping) becomes Lean functions on `ℕ`
and `ℤ`; the effectful generation run becomes a function producing the
ordered list of durable events (directory creations, tile writes,
descriptor write) together with an outcome which is either success,
the open-failure return value, or a raised error.  External
image-codec behaviour (Pillow) is abstracted by a `Codec` parameter
carrying pixel data for mode conversion and resampling; their
size/mode contracts are part of the embedding.
-/

/-- Decimal ceiling division: the value of `math.ceil(a / b)` for
natural `a` and positive natural `b` (the code always divides by a
power of two or by the tile size). -/
def ceil_div (a b : ℕ) : ℕ := (a + b - 1) / b

/-- Fuel-driven ceiling base-2 logarithm, structurally recursive so
that the kernel can evaluate it on concrete inputs.  For `n ≤ fuel`
it agrees with `Nat.clog 2 n` (proved below). -/
def ceil_log2_fuel : ℕ → ℕ → ℕ
  | 0, _ => 0
  | _ + 1, 0 => 0
  | _ + 1, 1 => 0
  | f + 1, n + 2 => ceil_log2_fuel f ((n + 2 + 1) / 2) + 1

/-- Exact ceiling base-2 logarithm: the embedding of
`math.ceil(math.log2(n))` for `n ≥ 1`. -/
def ceil_log2 (n : ℕ) : ℕ := ceil_log2_fuel n n

/-- `max_dimension = max(width, height)`; `max_level =
math.ceil(math.log2(max_dimension))` (`n.py` lines 64-65), embedded in
exact arithmetic as the ceiling base-2 logarithm. -/
def max_level (w h : ℕ) : ℕ := ceil_log2 (max w h)

/-- The list of levels the generation loop visits:
`range(self.max_level + 1)` (`n.py` line 78). -/
def pyramid_levels (w h : ℕ) : List ℕ := List.range (max_level w h + 1)

/-- `scale_factor = 2 ** (self.max_level - level)` (`n.py` line 101). -/
def scale_factor (w h L : ℕ) : ℕ := 2 ^ (max_level w h - L)

/-- `level_width = math.ceil(orig_width / scale_factor)` (`n.py` line 102). -/
def level_width (w h L : ℕ) : ℕ := ceil_div w (scale_factor w h L)

/-- `level_height = math.ceil(orig_height / scale_factor)` (`n.py` line 103). -/
def level_height (w h L : ℕ) : ℕ := ceil_div h (scale_factor w h L)

/-- `cols = math.ceil(level_width / self.tile_size)` (`n.py` line 118). -/
def level_cols (ts w h L : ℕ) : ℕ := ceil_div (level_width w h L) ts

/-- `rows = math.ceil(level_height / self.tile_size)` (`n.py` line 119). -/
def level_rows (ts w h L : ℕ) : ℕ := ceil_div (level_height w h L) ts

/-- The raw crop rectangle of a tile, before clamping (`n.py` lines
152-162): content origin `(col*tile_size, row*tile_size)` expanded by
`overlap` on every side.  Coordinates live in `ℤ` because the left and
top edges can go negative before clamping. -/
def crop_rect (ts ov col row : ℤ) : ℤ × ℤ × ℤ × ℤ :=
  (col * ts - ov, row * ts - ov, col * ts + ts + ov, row * ts + ts + ov)

/-- Clamping of a crop rectangle to the level bounds (`n.py` lines
166-169): `max(0, ·)` on the left/top edges and `min(level_width, ·)`,
`min(level_height, ·)` on the right/bottom edges. -/
def clamp_rect (lw lh : ℤ) (r : ℤ × ℤ × ℤ × ℤ) : ℤ × ℤ × ℤ × ℤ :=
  (max 0 r.1, max 0 r.2.1, min lw r.2.2.1, min lh r.2.2.2)

/-- Pillow color modes relevant to the generator. The allow-list in
`n.py` line 51 is `('RGB', 'RGBA', 'L')`; anything else is coerced. -/
inductive PMode
  | RGB
  | RGBA
  | L
  | other (s : String)
deriving DecidableEq, Repr

/-- One pixel, as RGBA channels in `0..255`.  Images without an alpha
channel are represented with `a = 255`; grayscale images carry the
gray value in `r`. -/
structure Pix where
  r : ℕ
  g : ℕ
  b : ℕ
  a : ℕ
deriving DecidableEq, Repr

/-- A Pillow image: pixel dimensions, color mode, and pixel data. -/
structure PImage where
  width : ℕ
  height : ℕ
  mode : PMode
  px : ℕ → ℕ → Pix

/-- External pixel-producing operations of the image codec (Pillow),
abstracted: `convert_px img x y` is the pixel data of
`img.convert('RGB')`, and `resample_px img w h x y` is the pixel data
of `img.resize((w, h), Image.Resampling.LANCZOS)`.  The codec
contracts the embedding relies on are only that `convert('RGB')`
yields an image of mode RGB with the same size, and that `resize`
yields an image of the requested size with the same mode. -/
structure Codec where
  convert_px : PImage → ℕ → ℕ → Pix
  resample_px : PImage → ℕ → ℕ → ℕ → ℕ → Pix

/-- `img.convert('RGB')`: mode becomes RGB, size is preserved, pixel
data is the codec conversion. -/
def convertRGB (c : Codec) (img : PImage) : PImage :=
  { width := img.width, height := img.height, mode := PMode.RGB,
    px := fun x y => c.convert_px img x y }

/-- `img.resize((w, h), LANCZOS)`: requested size, preserved mode,
codec-resampled pixel data. -/
def resizeImg (c : Codec) (img : PImage) (w h : ℕ) : PImage :=
  { width := w, height := h, mode := img.mode,
    px := fun x y => c.resample_px img w h x y }

/-- Pillow rounding-correct blend primitive `MULDIV255(x, y)` =
`x * y / 255` with rounding, as used by `Image.paste` with an `L`
mask. -/
def muldiv255 (x y : ℕ) : ℕ :=
  (x * y + 128 + (x * y + 128) / 256) / 256

/-- Compositing an RGBA image onto an opaque black background using
its own alpha channel as mask (`n.py` lines 56-58):
`background = Image.new('RGB', img.size, (0, 0, 0))` followed by
`background.paste(img, mask=img.split()[3])`.  Each output channel is
the blend of the black background (weight `255 - a`) with the
foreground channel (weight `a`). -/
def compositeOnBlack (img : PImage) : PImage :=
  { width := img.width, height := img.height, mode := PMode.RGB,
    px := fun x y =>
      let p := img.px x y
      { r := muldiv255 0 (255 - p.a) + muldiv255 p.r p.a,
        g := muldiv255 0 (255 - p.a) + muldiv255 p.g p.a,
        b := muldiv255 0 (255 - p.a) + muldiv255 p.b p.a,
        a := 255 } }

/-- Color-mode normalization (`n.py` lines 51-58), applied once in
`generate` before any level is produced: a mode outside
`('RGB', 'RGBA', 'L')` is converted to RGB; RGBA is composited onto a
black background; RGB and L are left unchanged. -/
def normalizeMode (c : Codec) (img : PImage) : PImage :=
  if img.mode ≠ PMode.RGB ∧ img.mode ≠ PMode.RGBA ∧ img.mode ≠ PMode.L then
    convertRGB c img
  else if img.mode = PMode.RGBA then
    compositeOnBlack img
  else
    img

/-- `img.crop((x1, y1, x2, y2))` for an in-bounds box: the resulting
image has size `(x2 - x1, y2 - y1)`, the same mode, and pixel `(x, y)`
taken from `(x1 + x, y1 + y)` of the source. -/
def cropImg (img : PImage) (x1 y1 x2 y2 : ℕ) : PImage :=
  { width := x2 - x1, height := y2 - y1, mode := img.mode,
    px := fun x y => img.px (x1 + x) (y1 + y) }

/-- The crop performed by `_save_tile` (`n.py` lines 152-172): the
overlap-expanded rectangle of tile `(col, row)`, clamped to the level
bounds, cut out of the level image.  The clamped coordinates are
nonnegative, so taking `Int.toNat` is exact. -/
def cropTile (img : PImage) (ts ov col row lw lh : ℕ) : PImage :=
  let r := clamp_rect (lw : ℤ) (lh : ℤ) (crop_rect (ts : ℤ) (ov : ℤ) (col : ℤ) (row : ℤ))
  cropImg img r.1.toNat r.2.1.toNat r.2.2.1.toNat r.2.2.2.toNat

/-- The tile image actually passed to `tile.save` by `_save_tile`
(`n.py` lines 172-186): the clamped crop, additionally converted to
RGB when the format is jpeg and the mode is outside `('RGB', 'L')`;
png and other formats save the crop unchanged. -/
def savedTile (c : Codec) (format : String) (img : PImage)
    (ts ov col row lw lh : ℕ) : PImage :=
  let tile := cropTile img ts ov col row lw lh
  if format = "jpeg" then
    if tile.mode ≠ PMode.RGB ∧ tile.mode ≠ PMode.L then convertRGB c tile else tile
  else
    tile

/-- The image a level is tiled from (`n.py` lines 108-115): the
(already normalized) original at the maximum level, and a LANCZOS
downsample of that original to the level dimensions otherwise. -/
def levelImage (c : Codec) (normImg : PImage) (w h L : ℕ) : PImage :=
  if L = max_level w h then normImg
  else resizeImg c normImg (level_width w h L) (level_height w h L)

/-- The content of the `.dzi` descriptor file written by
`_create_dzi_descriptor` (`n.py` lines 188-208). -/
structure Descriptor where
  format : String
  overlap : ℕ
  tileSize : ℕ
  width : ℕ
  height : ℕ
  url : String
deriving DecidableEq, Repr

/-- The durable, externally observable effects of a generation run, in
order: creation of the tiles directory (`n.py` line 73), creation of a
level directory (line 126), a successful tile write (line 182/184/186),
and the descriptor write (line 83). -/
inductive Event
  | mkTilesDir
  | mkLevelDir (level : ℕ)
  | writeTile (level col row : ℕ)
  | writeDescriptor (d : Descriptor)
deriving DecidableEq, Repr

/-- Errors a run can raise: `math.log2(0)` raises `ValueError` (line
65 with a zero max dimension), `level_width / self.tile_size` raises
`ZeroDivisionError` when the tile size is zero (line 118), and a tile
encode/write failure propagates whatever exception `tile.save`
raised. -/
inductive RunError
  | log2DomainError
  | zeroDivisionError
  | tileError (msg : String)
deriving DecidableEq, Repr

/-- Outcome of `generate` (`n.py` lines 28-94): `False` when the
source image cannot be opened (caught at lines 38-42), `True` on
success, and a propagated exception otherwise (nothing else is
caught). -/
inductive GenResult
  | openFailed
  | ok
  | raised (e : RunError)
deriving DecidableEq, Repr

/-- The generation context: the configuration held by `DZIGenerator`
plus the abstracted external collaborators.  `save lvl col row tile`
is the outcome of `tile.save(...)` for that tile: `none` on success,
`some msg` when the encoder or filesystem raises. -/
structure GenCtx where
  codec : Codec
  save : ℕ → ℕ → ℕ → PImage → Option String
  format : String
  tileSize : ℕ
  overlap : ℕ

/-- Sequencing of two effectful phases: if the first raised, its
events stand and the second never runs; otherwise the events
concatenate and the second phase decides the error. -/
def seqRun (a b : List Event × Option RunError) : List Event × Option RunError :=
  match a.2 with
  | none => (a.1 ++ b.1, b.2)
  | some e => (a.1, some e)

/-- The outcome of `tile.save(...)` inside `_save_tile` for one tile:
the external saver applied to the tile image `_save_tile` computed. -/
def attemptTile (ctx : GenCtx) (limg : PImage) (lw lh L col row : ℕ) : Option String :=
  ctx.save L col row (savedTile ctx.codec ctx.format limg ctx.tileSize ctx.overlap col row lw lh)

/-- One iteration of the inner tile loop (`n.py` lines 131-133): save
the tile; on success the tile file exists, on failure the exception
aborts the run. -/
def tileStep (ctx : GenCtx) (limg : PImage) (lw lh L col row : ℕ) :
    List Event × Option RunError :=
  match attemptTile ctx limg lw lh L col row with
  | none => ([Event.writeTile L col row], none)
  | some msg => ([], some (RunError.tileError msg))

/-- The inner `for col in range(cols)` loop of `_generate_level`,
over the remaining column indices. -/
def colLoop (ctx : GenCtx) (limg : PImage) (lw lh L row : ℕ) :
    List ℕ → List Event × Option RunError
  | [] => ([], none)
  | col :: rest => seqRun (tileStep ctx limg lw lh L col row) (colLoop ctx limg lw lh L row rest)

/-- The outer `for row in range(rows)` loop of `_generate_level`,
over the remaining row indices. -/
def rowLoop (ctx : GenCtx) (limg : PImage) (lw lh L cols : ℕ) :
    List ℕ → List Event × Option RunError
  | [] => ([], none)
  | row :: rest =>
    seqRun (colLoop ctx limg lw lh L row (List.range cols)) (rowLoop ctx limg lw lh L cols rest)

/-- `_generate_level` (`n.py` lines 96-145) for one level: compute the
level dimensions, materialize the level image, compute the tile grid
(raising `ZeroDivisionError` when the tile size is zero), create the
level directory, then write the tiles in row-major order. -/
def generateLevel (ctx : GenCtx) (normImg : PImage) (w h L : ℕ) :
    List Event × Option RunError :=
  let lw := level_width w h L
  let lh := level_height w h L
  let limg := levelImage ctx.codec normImg w h L
  if ctx.tileSize = 0 then ([], some RunError.zeroDivisionError)
  else
    let cols := level_cols ctx.tileSize w h L
    let rows := level_rows ctx.tileSize w h L
    seqRun ([Event.mkLevelDir L], none) (rowLoop ctx limg lw lh L cols (List.range rows))

/-- The `for level in range(self.max_level + 1)` loop of `generate`
(`n.py` lines 78-80), over the remaining level indices. -/
def levelLoop (ctx : GenCtx) (normImg : PImage) (w h : ℕ) :
    List ℕ → List Event × Option RunError
  | [] => ([], none)
  | L :: rest => seqRun (generateLevel ctx normImg w h L) (levelLoop ctx normImg w h rest)

/-- The descriptor `_create_dzi_descriptor` writes (`n.py` lines
188-208), built from the configuration and the original image
dimensions; the TileGroup url is the tiles directory base name
`{output_name}_files` with a trailing slash. -/
def mkDescriptor (ctx : GenCtx) (outputName : String) (w h : ℕ) : Descriptor :=
  { format := ctx.format, overlap := ctx.overlap, tileSize := ctx.tileSize,
    width := w, height := h, url := outputName ++ "_files/" }

/-- `DZIGenerator.generate` (`n.py` lines 28-94): open the source
(returning `False` on failure), capture the original dimensions,
normalize the color mode once, compute `max_level` (raising on a zero
max dimension), create the tiles directory, generate every level from
0 to `max_level`, then write the descriptor. -/
def generate (ctx : GenCtx) (outputName : String) (src : Option PImage) :
    List Event × GenResult :=
  match src with
  | none => ([], GenResult.openFailed)
  | some img =>
    let w := img.width
    let h := img.height
    let normImg := normalizeMode ctx.codec img
    if max w h = 0 then ([], GenResult.raised RunError.log2DomainError)
    else
      let body :=
        seqRun ([Event.mkTilesDir], none)
          (seqRun (levelLoop ctx normImg w h (pyramid_levels w h))
            ([Event.writeDescriptor (mkDescriptor ctx outputName w h)], none))
      (body.1, match body.2 with
        | none => GenResult.ok
        | some e => GenResult.raised e)

/-- Recognizer for descriptor-write events. -/
def isDescEvent : Event → Bool
  | Event.writeDescriptor _ => true
  | _ => false

/-- The tile-save attempt for tile `(col, row)` of level `L` of a run
over a source of dimensions `w × h` whose normalized working image is
`normImg`: the saver applied to the tile `_save_tile` extracts from
that level's image. -/
def levelAttempt (ctx : GenCtx) (normImg : PImage) (w h L col row : ℕ) : Option String :=
  attemptTile ctx (levelImage ctx.codec normImg w h L)
    (level_width w h L) (level_height w h L) L col row

/-- The level-generation phase of a run on source `img`: the loop of
`generate` over all levels, on the once-normalized working image. -/
def runLevels (ctx : GenCtx) (img : PImage) : List Event × Option RunError :=
  levelLoop ctx (normalizeMode ctx.codec img) img.width img.height
    (pyramid_levels img.width img.height)

/-- An XML element as `xml.etree.ElementTree` exposes it after
parsing: a (namespace-qualified) tag, string attributes, and child
elements.  Attribute values are kept as character lists. -/
inductive XElem where
  | mk (tag : String) (attrs : List (String × List Char)) (children : List XElem)

/-- The tag of an element. -/
def XElem.tag : XElem → String
  | XElem.mk t _ _ => t

/-- The attribute list of an element. -/
def XElem.attrs : XElem → List (String × List Char)
  | XElem.mk _ a _ => a

/-- The child elements of an element. -/
def XElem.children : XElem → List XElem
  | XElem.mk _ _ c => c

/-- `elem.find(tag)`: the first direct child with the given tag, or
`None`. -/
def XElem.find (e : XElem) (t : String) : Option XElem :=
  e.children.find? (fun ch => ch.tag == t)

/-- `elem.get(name)`: the value of the named attribute, or `None`. -/
def XElem.getA (e : XElem) (name : String) : Option (List Char) :=
  (e.attrs.find? (fun p => p.1 == name)).map (fun p => p.2)

/-- The deep-zoom XML namespace declared by the descriptor template. -/
def dziNS : String := "http://schemas.microsoft.com/deepzoom/2008"

/-- ElementTree reports elements of a document with a default
namespace under qualified names: the namespace in braces, then the
local tag. -/
def nsTag (t : String) : String := "\x7b" ++ dziNS ++ "\x7d" ++ t

/-- The decimal digit character for `d < 10`. -/
def digitChar (d : ℕ) : Char := Char.ofNat (48 + d)

/-- Decimal rendering of a natural number, most significant digit
first: the embedding of the Python f-string interpolation `str(n)`
used by the descriptor template for its numeric attributes. -/
def natDigits (n : ℕ) : List Char :=
  if h : n < 10 then [digitChar n]
  else natDigits (n / 10) ++ [digitChar (n % 10)]
decreasing_by exact Nat.div_lt_self (by omega) (by omega)

/-- The numeric value of a decimal digit character, or `none`. -/
def parseDigit (ch : Char) : Option ℕ :=
  if ('0' : Char) ≤ ch ∧ ch ≤ ('9' : Char) then some (ch.toNat - 48) else none

/-- Left fold of decimal digits onto an accumulator; fails on the
first non-digit character. -/
def parseNatAux : ℕ → List Char → Option ℕ
  | acc, [] => some acc
  | acc, ch :: rest =>
    match parseDigit ch with
    | some d => parseNatAux (acc * 10 + d) rest
    | none => none

/-- The embedding of the `int(s)` calls in `diagnose_dzi`, on the
digit strings the descriptor writer produces: the decimal value, or
`none` when the string is empty or holds a non-digit (in which case
Python raises and the surrounding `except` returns early). -/
def pyInt (s : List Char) : Option ℕ :=
  match s with
  | [] => none
  | _ => parseNatAux 0 s

/-- The XML document `_create_dzi_descriptor` writes (`n.py` lines
196-205), as ElementTree parses it back: because the template declares
the deep-zoom default namespace, every element tag is reported
namespace-qualified.  The `Image` root carries `Format`, `Overlap`
and `TileSize`; its `Size` child carries `Height` and `Width`; the
`Sources` child holds the `TileGroup` url. -/
def descriptorXml (d : Descriptor) : XElem :=
  XElem.mk (nsTag "Image")
    [("Format", d.format.data), ("Overlap", natDigits d.overlap),
     ("TileSize", natDigits d.tileSize)]
    [XElem.mk (nsTag "Size")
       [("Height", natDigits d.height), ("Width", natDigits d.width)] [],
     XElem.mk (nsTag "Sources") []
       [XElem.mk (nsTag "TileGroup") [("Url", d.url.data)] []]]

/-- The descriptor-parsing part of `diagnose_dzi` (`diganosis.py`
lines 20-42): find the `Size` element first under the deep-zoom
namespace and then without it, read `Width` and `Height` from it and
`TileSize`, `Overlap`, `Format` from the root, `int`-parsing the
numeric ones.  Any failure (missing element, missing attribute,
unparsable int) raises in Python and is caught by the surrounding
`except`, making the function return early: embedded as `none`. -/
def diagnoseParse (root : XElem) : Option (ℕ × ℕ × ℕ × ℕ × List Char) :=
  let sizeElem :=
    match root.find (nsTag "Size") with
    | some e => some e
    | none => root.find "Size"
  match sizeElem with
  | none => none
  | some se =>
    match se.getA "Width", se.getA "Height", root.getA "TileSize",
        root.getA "Overlap", root.getA "Format" with
    | some wS, some hS, some tsS, some ovS, some fS =>
      match pyInt wS, pyInt hS, pyInt tsS, pyInt ovS with
      | some w, some hh, some ts, some ov => some (w, hh, ts, ov, fS)
      | _, _, _, _ => none
    | _, _, _, _, _ => none

/-- Result of `check_original_image` (`diganosis.py` lines 90-127):
`None` when the file does not exist (line 100), the pair `(w, h)` on
success, and the pair `(None, None)` when opening or decoding the
image raises (line 127). -/
inductive OrigCheck
  | missing
  | okDims (w h : ℕ)
  | readError
deriving DecidableEq, Repr

/-- `check_original_image`, as a function of whether the file exists
and of the outcome of `Image.open` (`none` meaning the open or decode
raised). -/
def check_original_image (fileExists : Bool) (readResult : Option (ℕ × ℕ)) : OrigCheck :=
  if fileExists then
    match readResult with
    | some (w, h) => OrigCheck.okDims w h
    | none => OrigCheck.readError
  else OrigCheck.missing

/-- Python truthiness of the value `check_original_image` returns:
`None` is falsy, while any tuple — including `(None, None)` — is
truthy. -/
def origTruthy : OrigCheck → Bool
  | OrigCheck.missing => false
  | OrigCheck.okDims _ _ => true
  | OrigCheck.readError => true

/-- The first component unpacked from the returned pair (`orig_w`);
`none` models Python `None`.  Unused in the `missing` case, where the
guard in `compare_dimensions` already failed. -/
def origW : OrigCheck → Option ℕ
  | OrigCheck.okDims w _ => some w
  | _ => none

/-- The second component unpacked from the returned pair (`orig_h`). -/
def origH : OrigCheck → Option ℕ
  | OrigCheck.okDims _ h => some h
  | _ => none

/-- Possible normal outcomes of `compare_dimensions`. -/
inductive CompareOutcome
  | skipped
  | matched
  | mismatch (coverage : ℚ)
deriving DecidableEq, Repr

/-- `compare_dimensions` (`diganosis.py` lines 130-151): proceed only
when both `diagnose_dzi` and `check_original_image` returned truthy
values; report a match when both dimension comparisons succeed,
otherwise compute the coverage percentage
`(dzi_w*dzi_h)/(orig_w*orig_h)*100` — which raises an unguarded
`TypeError` when the original dimensions are `None`, and an unguarded
`ZeroDivisionError` when the original area is zero.  Comparing an
`int` with `None` in Python yields `False`, which the `Option`
equality mirrors. -/
def compare_dimensions (dzi : Option (ℕ × ℕ)) (orig : OrigCheck) :
    Except String CompareOutcome :=
  match dzi with
  | none => Except.ok CompareOutcome.skipped
  | some (dw, dh) =>
    if origTruthy orig then
      let ow := origW orig
      let oh := origH orig
      if some dw = ow ∧ some dh = oh then Except.ok CompareOutcome.matched
      else
        match ow, oh with
        | some ow0, some oh0 =>
          if ow0 * oh0 = 0 then Except.error "ZeroDivisionError"
          else Except.ok (CompareOutcome.mismatch
            (((dw * dh : ℕ) : ℚ) / ((ow0 * oh0 : ℕ) : ℚ) * 100))
        | _, _ => Except.error "TypeError"
    else Except.ok CompareOutcome.skipped

/-- An opaque-looking but concrete pixel used by the test codec. -/
def zeroPix : Pix := { r := 0, g := 0, b := 0, a := 0 }

/-- A concrete codec for witnesses: conversion and resampling both
return black pixels. -/
def trivialCodec : Codec :=
  { convert_px := fun _ _ _ => zeroPix, resample_px := fun _ _ _ _ _ => zeroPix }

/-- An opaque solid pixel. -/
def solidPix : Pix := { r := 10, g := 20, b := 30, a := 255 }

/-- A concrete 4 by 4 RGB source image. -/
def img4 : PImage := { width := 4, height := 4, mode := PMode.RGB, px := fun _ _ => solidPix }

/-- A concrete 2 by 2 RGB source image. -/
def img2 : PImage := { width := 2, height := 2, mode := PMode.RGB, px := fun _ _ => solidPix }

/-- A degenerate source image with zero dimensions. -/
def img0 : PImage := { width := 0, height := 0, mode := PMode.RGB, px := fun _ _ => solidPix }

/-- A fully transparent 2 by 2 RGBA source image with nonzero color
channels. -/
def imgT : PImage :=
  { width := 2, height := 2, mode := PMode.RGBA, px := fun _ _ => { r := 7, g := 7, b := 7, a := 0 } }

/-- A tile saver that always succeeds. -/
def okSave : ℕ → ℕ → ℕ → PImage → Option String := fun _ _ _ _ => none

/-- A concrete context: jpeg format, tile size 1, overlap 0, saving
always succeeds. -/
def baseCtx : GenCtx :=
  { codec := trivialCodec, save := okSave, format := "jpeg", tileSize := 1, overlap := 0 }

/-- A concrete context with tile size 0 (and otherwise default
options), exercising the division by zero in the grid computation. -/
def ctxTs0 : GenCtx :=
  { codec := trivialCodec, save := okSave, format := "jpeg", tileSize := 0, overlap := 1 }

/-- A saver failing exactly at tile `(level 1, col 0, row 0)` with the
message "disk full". -/
def failSaveA : ℕ → ℕ → ℕ → PImage → Option String :=
  fun L col row _ => if L = 1 ∧ col = 0 ∧ row = 0 then some "disk full" else none

/-- A saver failing exactly at tile `(level 1, col 1, row 0)` with the
same message. -/
def failSaveB : ℕ → ℕ → ℕ → PImage → Option String :=
  fun L col row _ => if L = 1 ∧ col = 1 ∧ row = 0 then some "disk full" else none

/-- `baseCtx` with the saver `failSaveA`. -/
def ctxFailA : GenCtx :=
  { codec := trivialCodec, save := failSaveA, format := "jpeg", tileSize := 1, overlap := 0 }

/-- `baseCtx` with the saver `failSaveB`. -/
def ctxFailB : GenCtx :=
  { codec := trivialCodec, save := failSaveB, format := "jpeg", tileSize := 1, overlap := 0 }

theorem ceil_log2_fuel_eq_clog : ∀ f n, n ≤ f → ceil_log2_fuel f n = Nat.clog 2 n := by
  intro f
  induction f with
  | zero =>
    intro n hn
    interval_cases n
    simp [ceil_log2_fuel]
  | succ f ih =>
    intro n hn
    match n with
    | 0 => simp [ceil_log2_fuel]
    | 1 => simp [ceil_log2_fuel]
    | m + 2 =>
      rw [ceil_log2_fuel, Nat.clog_of_two_le (by norm_num) (by omega),
        ih ((m + 2 + 1) / 2) (by omega)]
      norm_num

theorem ceil_log2_eq_clog (n : ℕ) : ceil_log2 n = Nat.clog 2 n :=
  ceil_log2_fuel_eq_clog n n le_rfl

theorem ceil_div_eq_ceilDiv (a d : ℕ) : ceil_div a d = a ⌈/⌉ d := rfl

theorem ceil_div_le_iff {d : ℕ} (hd : 0 < d) (a m : ℕ) :
    ceil_div a d ≤ m ↔ a ≤ d * m := by
  rw [ceil_div_eq_ceilDiv]
  exact ceilDiv_le_iff_le_mul hd

theorem le_ceil_div_mul {d : ℕ} (hd : 0 < d) (a : ℕ) : a ≤ d * ceil_div a d := by
  rw [ceil_div_eq_ceilDiv]
  simpa [smul_eq_mul] using le_smul_ceilDiv (α := ℕ) (β := ℕ) (b := a) hd

theorem ceil_div_antitone {d1 d2 : ℕ} (hd1 : 0 < d1) (hdd : d1 ≤ d2) (a : ℕ) :
    ceil_div a d2 ≤ ceil_div a d1 := by
  have hd2 : 0 < d2 := lt_of_lt_of_le hd1 hdd
  rw [ceil_div_le_iff hd2]
  calc a ≤ d1 * ceil_div a d1 := le_ceil_div_mul hd1 a
    _ ≤ d2 * ceil_div a d1 := Nat.mul_le_mul_right _ hdd

theorem ceil_div_one (a : ℕ) : ceil_div a 1 = a := by
  simp [ceil_div]

/-- Claim C1: for every source image with width `w ≥ 1` and height
`h ≥ 1`, the generator computes `max_level` as the ceiling base-2
logarithm of `max w h` (the least `k` with `max w h ≤ 2 ^ k`), the
level loop visits `max_level + 1` levels indexed `0 .. max_level`, and
level `max_level` has dimensions exactly `(w, h)`, the original image
being used unresampled at that level. -/
theorem claim_C1 (w h : ℕ) (hw : 1 ≤ w) (hh : 1 ≤ h) :
    (max w h ≤ 2 ^ max_level w h ∧ ∀ k, max w h ≤ 2 ^ k → max_level w h ≤ k)
    ∧ pyramid_levels w h = List.range (max_level w h + 1)
    ∧ (pyramid_levels w h).length = max_level w h + 1
    ∧ level_width w h (max_level w h) = w
    ∧ level_height w h (max_level w h) = h
    ∧ ∀ (c : Codec) (img : PImage), levelImage c img w h (max_level w h) = img := by
  have hclog : max_level w h = Nat.clog 2 (max w h) := ceil_log2_eq_clog _
  refine ⟨⟨?_, ?_⟩, rfl, ?_, ?_, ?_, ?_⟩
  · rw [hclog]
    exact Nat.le_pow_clog (by norm_num) _
  · intro k hk
    rw [hclog]
    exact (Nat.le_pow_iff_clog_le (by norm_num)).1 hk
  · simp [pyramid_levels]
  · simp [level_width, scale_factor, Nat.sub_self, ceil_div]
  · simp [level_height, scale_factor, Nat.sub_self, ceil_div]
  · intro c img
    simp [levelImage]

theorem claim_C1_witness :
    1 ≤ 300 ∧ 1 ≤ 200
    ∧ level_width 300 200 (max_level 300 200) = 300
    ∧ level_height 300 200 (max_level 300 200) = 200 :=
  ⟨by norm_num, by norm_num,
    (claim_C1 300 200 (by norm_num) (by norm_num)).2.2.2.1,
    (claim_C1 300 200 (by norm_num) (by norm_num)).2.2.2.2.1⟩

/-- Claim C2: for every level `L ≤ max_level`, the planned level
dimensions are the ceiling divisions of the source dimensions by
`2 ^ (max_level - L)`, the dimensions are monotonically non-decreasing
in the level index, and the tile grid is the ceiling division of the
level dimensions by the tile size. -/
theorem claim_C2 (w h ts L1 L2 : ℕ) (hts : 1 ≤ ts) (h12 : L1 ≤ L2)
    (h2m : L2 ≤ max_level w h) :
    level_width w h L1 = ceil_div w (2 ^ (max_level w h - L1))
    ∧ level_height w h L1 = ceil_div h (2 ^ (max_level w h - L1))
    ∧ level_width w h L1 ≤ level_width w h L2
    ∧ level_height w h L1 ≤ level_height w h L2
    ∧ level_cols ts w h L1 = ceil_div (level_width w h L1) ts
    ∧ level_rows ts w h L1 = ceil_div (level_height w h L1) ts := by
  have hpow : scale_factor w h L2 ≤ scale_factor w h L1 :=
    Nat.pow_le_pow_right (by norm_num) (Nat.sub_le_sub_left h12 _)
  have hpos : 0 < scale_factor w h L2 := Nat.pos_pow_of_pos _ (by norm_num)
  exact ⟨rfl, rfl, ceil_div_antitone hpos hpow w, ceil_div_antitone hpos hpow h, rfl, rfl⟩

theorem claim_C2_witness :
    1 ≤ 256 ∧ 3 ≤ 5 ∧ 5 ≤ max_level 300 200
    ∧ level_width 300 200 3 ≤ level_width 300 200 5 :=
  ⟨by norm_num, by norm_num, by decide,
    (claim_C2 300 200 256 3 5 (by norm_num) (by norm_num) (by decide)).2.2.1⟩

/-- Claim C3: for every tile `(col, row)` of a level with dimensions
`lw × lh`, the crop rectangle before clamping is
`(col*ts - ov, row*ts - ov, col*ts + ts + ov, row*ts + ts + ov)`, and
after clamping each coordinate to `[0, lw]` horizontally and `[0, lh]`
vertically, the left/top edges are never negative and the right/bottom
edges never exceed `lw`/`lh`. -/
theorem claim_C3 (ts ov col row lw lh : ℤ) :
    crop_rect ts ov col row
      = (col * ts - ov, row * ts - ov, col * ts + ts + ov, row * ts + ts + ov)
    ∧ clamp_rect lw lh (crop_rect ts ov col row)
      = (max 0 (col * ts - ov), max 0 (row * ts - ov),
         min lw (col * ts + ts + ov), min lh (row * ts + ts + ov))
    ∧ 0 ≤ (clamp_rect lw lh (crop_rect ts ov col row)).1
    ∧ 0 ≤ (clamp_rect lw lh (crop_rect ts ov col row)).2.1
    ∧ (clamp_rect lw lh (crop_rect ts ov col row)).2.2.1 ≤ lw
    ∧ (clamp_rect lw lh (crop_rect ts ov col row)).2.2.2 ≤ lh :=
  ⟨rfl, rfl, le_max_left _ _, le_max_left _ _, min_le_left _ _, min_le_left _ _⟩

theorem seqRun_of_none {a b : List Event × Option RunError} (ha : a.2 = none) :
    seqRun a b = (a.1 ++ b.1, b.2) := by
  simp [seqRun, ha]

theorem seqRun_of_some {a b : List Event × Option RunError} {e : RunError}
    (ha : a.2 = some e) : seqRun a b = (a.1, some e) := by
  simp [seqRun, ha]

theorem seqRun_err_none_iff (a b : List Event × Option RunError) :
    (seqRun a b).2 = none ↔ a.2 = none ∧ b.2 = none := by
  cases ha : a.2 with
  | none => simp [seqRun_of_none ha, ha]
  | some e => simp [seqRun_of_some ha, ha]

theorem mem_seqRun_iff (a b : List Event × Option RunError) (e : Event) :
    e ∈ (seqRun a b).1 ↔ e ∈ a.1 ∨ (a.2 = none ∧ e ∈ b.1) := by
  cases ha : a.2 with
  | none => simp [seqRun_of_none ha, ha]
  | some er => simp [seqRun_of_some ha, ha]

theorem tileStep_err_none_iff (ctx : GenCtx) (limg : PImage) (lw lh L col row : ℕ) :
    (tileStep ctx limg lw lh L col row).2 = none
      ↔ attemptTile ctx limg lw lh L col row = none := by
  cases ha : attemptTile ctx limg lw lh L col row <;> simp [tileStep, ha]

theorem colLoop_err_none_iff (ctx : GenCtx) (limg : PImage) (lw lh L row : ℕ)
    (cs : List ℕ) :
    (colLoop ctx limg lw lh L row cs).2 = none
      ↔ ∀ col ∈ cs, attemptTile ctx limg lw lh L col row = none := by
  induction cs with
  | nil => simp [colLoop]
  | cons c rest ih =>
    rw [colLoop, seqRun_err_none_iff, tileStep_err_none_iff, ih]
    simp

theorem rowLoop_err_none_iff (ctx : GenCtx) (limg : PImage) (lw lh L cols : ℕ)
    (rs : List ℕ) :
    (rowLoop ctx limg lw lh L cols rs).2 = none
      ↔ ∀ row ∈ rs, ∀ col ∈ List.range cols,
          attemptTile ctx limg lw lh L col row = none := by
  induction rs with
  | nil => simp [rowLoop]
  | cons r rest ih =>
    rw [rowLoop, seqRun_err_none_iff, colLoop_err_none_iff, ih]
    simp

theorem generateLevel_err_none_iff (ctx : GenCtx) (normImg : PImage) (w h L : ℕ)
    (hts : ctx.tileSize ≠ 0) :
    (generateLevel ctx normImg w h L).2 = none
      ↔ ∀ row ∈ List.range (level_rows ctx.tileSize w h L),
          ∀ col ∈ List.range (level_cols ctx.tileSize w h L),
          levelAttempt ctx normImg w h L col row = none := by
  rw [generateLevel]
  simp only [hts, if_false]
  rw [seqRun_err_none_iff, rowLoop_err_none_iff]
  simp [levelAttempt]

theorem levelLoop_err_none_iff (ctx : GenCtx) (normImg : PImage) (w h : ℕ)
    (hts : ctx.tileSize ≠ 0) (Ls : List ℕ) :
    (levelLoop ctx normImg w h Ls).2 = none
      ↔ ∀ L ∈ Ls, ∀ row ∈ List.range (level_rows ctx.tileSize w h L),
          ∀ col ∈ List.range (level_cols ctx.tileSize w h L),
          levelAttempt ctx normImg w h L col row = none := by
  induction Ls with
  | nil => simp [levelLoop]
  | cons L rest ih =>
    rw [levelLoop, seqRun_err_none_iff, generateLevel_err_none_iff ctx normImg w h L hts, ih]
    simp

theorem colLoop_mem_events (ctx : GenCtx) (limg : PImage) (lw lh L row : ℕ)
    (cs : List ℕ) (e : Event) (he : e ∈ (colLoop ctx limg lw lh L row cs).1) :
    ∃ col ∈ cs, e = Event.writeTile L col row
      ∧ attemptTile ctx limg lw lh L col row = none := by
  induction cs with
  | nil => simp [colLoop] at he
  | cons c rest ih =>
    rw [colLoop, mem_seqRun_iff] at he
    rcases he with he | ⟨_, he⟩
    · cases ha : attemptTile ctx limg lw lh L c row with
      | none =>
        simp [tileStep, ha] at he
        exact ⟨c, by simp, he, ha⟩
      | some msg => simp [tileStep, ha] at he
    · obtain ⟨col, hcol, hrest⟩ := ih he
      exact ⟨col, by simp [hcol], hrest⟩

theorem rowLoop_mem_events (ctx : GenCtx) (limg : PImage) (lw lh L cols : ℕ)
    (rs : List ℕ) (e : Event) (he : e ∈ (rowLoop ctx limg lw lh L cols rs).1) :
    ∃ row ∈ rs, ∃ col ∈ List.range cols, e = Event.writeTile L col row
      ∧ attemptTile ctx limg lw lh L col row = none := by
  induction rs with
  | nil => simp [rowLoop] at he
  | cons r rest ih =>
    rw [rowLoop, mem_seqRun_iff] at he
    rcases he with he | ⟨_, he⟩
    · obtain ⟨col, hcol, hrest⟩ := colLoop_mem_events ctx limg lw lh L r (List.range cols) e he
      exact ⟨r, by simp, col, hcol, hrest⟩
    · obtain ⟨row, hrow, rest2⟩ := ih he
      exact ⟨row, by simp [hrow], rest2⟩

theorem generateLevel_mem_events (ctx : GenCtx) (normImg : PImage) (w h L : ℕ)
    (e : Event) (he : e ∈ (generateLevel ctx normImg w h L).1) :
    e = Event.mkLevelDir L
      ∨ ∃ row ∈ List.range (level_rows ctx.tileSize w h L),
          ∃ col ∈ List.range (level_cols ctx.tileSize w h L),
          e = Event.writeTile L col row
            ∧ levelAttempt ctx normImg w h L col row = none := by
  rw [generateLevel] at he
  by_cases hts : ctx.tileSize = 0
  · simp [hts] at he
  · simp only [hts, if_false] at he
    rw [mem_seqRun_iff] at he
    rcases he with he | ⟨_, he⟩
    · simp at he
      exact Or.inl he
    · obtain ⟨row, hrow, col, hcol, hrest⟩ :=
        rowLoop_mem_events ctx _ _ _ L _ _ e he
      exact Or.inr ⟨row, hrow, col, hcol, hrest⟩

theorem levelLoop_mem_events (ctx : GenCtx) (normImg : PImage) (w h : ℕ)
    (Ls : List ℕ) (e : Event) (he : e ∈ (levelLoop ctx normImg w h Ls).1) :
    ∃ L ∈ Ls, e = Event.mkLevelDir L
      ∨ ∃ row ∈ List.range (level_rows ctx.tileSize w h L),
          ∃ col ∈ List.range (level_cols ctx.tileSize w h L),
          e = Event.writeTile L col row
            ∧ levelAttempt ctx normImg w h L col row = none := by
  induction Ls with
  | nil => simp [levelLoop] at he
  | cons L rest ih =>
    rw [levelLoop, mem_seqRun_iff] at he
    rcases he with he | ⟨_, he⟩
    · exact ⟨L, by simp, generateLevel_mem_events ctx normImg w h L e he⟩
    · obtain ⟨L2, hL2, hrest⟩ := ih he
      exact ⟨L2, by simp [hL2], hrest⟩

theorem levelLoop_no_desc (ctx : GenCtx) (normImg : PImage) (w h : ℕ)
    (Ls : List ℕ) (d : Descriptor) :
    Event.writeDescriptor d ∉ (levelLoop ctx normImg w h Ls).1 := by
  intro he
  obtain ⟨L, _, h1 | ⟨row, _, col, _, h2, _⟩⟩ := levelLoop_mem_events ctx normImg w h Ls _ he
  · exact Event.noConfusion h1
  · exact Event.noConfusion h2

theorem levelLoop_writeTile_attempt (ctx : GenCtx) (normImg : PImage) (w h : ℕ)
    (Ls : List ℕ) (L col row : ℕ)
    (he : Event.writeTile L col row ∈ (levelLoop ctx normImg w h Ls).1) :
    levelAttempt ctx normImg w h L col row = none := by
  obtain ⟨L2, _, h1 | ⟨row2, _, col2, _, h2, ha⟩⟩ :=
    levelLoop_mem_events ctx normImg w h Ls _ he
  · exact Event.noConfusion h1
  · obtain ⟨rfl, rfl, rfl⟩ : L = L2 ∧ col = col2 ∧ row = row2 := by
      cases h2
      exact ⟨rfl, rfl, rfl⟩
    exact ha

theorem colLoop_mem_of_none (ctx : GenCtx) (limg : PImage) (lw lh L row : ℕ)
    (cs : List ℕ) (hs : (colLoop ctx limg lw lh L row cs).2 = none)
    (col : ℕ) (hc : col ∈ cs) :
    Event.writeTile L col row ∈ (colLoop ctx limg lw lh L row cs).1 := by
  induction cs with
  | nil => simp at hc
  | cons c rest ih =>
    rw [colLoop, seqRun_err_none_iff] at hs
    obtain ⟨h1, h2⟩ := hs
    rw [colLoop, mem_seqRun_iff]
    rcases List.mem_cons.1 hc with rfl | hc2
    · refine Or.inl ?_
      rw [tileStep_err_none_iff] at h1
      simp [tileStep, h1]
    · exact Or.inr ⟨h1, ih h2 hc2⟩

theorem rowLoop_mem_of_none (ctx : GenCtx) (limg : PImage) (lw lh L cols : ℕ)
    (rs : List ℕ) (hs : (rowLoop ctx limg lw lh L cols rs).2 = none)
    (row col : ℕ) (hr : row ∈ rs) (hc : col ∈ List.range cols) :
    Event.writeTile L col row ∈ (rowLoop ctx limg lw lh L cols rs).1 := by
  induction rs with
  | nil => simp at hr
  | cons r rest ih =>
    rw [rowLoop, seqRun_err_none_iff] at hs
    obtain ⟨h1, h2⟩ := hs
    rw [rowLoop, mem_seqRun_iff]
    rcases List.mem_cons.1 hr with rfl | hr2
    · exact Or.inl (colLoop_mem_of_none ctx limg lw lh L row _ h1 col hc)
    · exact Or.inr ⟨h1, ih h2 hr2⟩

theorem generateLevel_mem_of_none (ctx : GenCtx) (normImg : PImage) (w h L : ℕ)
    (hts : ctx.tileSize ≠ 0) (hs : (generateLevel ctx normImg w h L).2 = none)
    (row col : ℕ) (hr : row ∈ List.range (level_rows ctx.tileSize w h L))
    (hc : col ∈ List.range (level_cols ctx.tileSize w h L)) :
    Event.writeTile L col row ∈ (generateLevel ctx normImg w h L).1 := by
  rw [generateLevel] at hs ⊢
  simp only [hts, if_false] at hs ⊢
  rw [seqRun_err_none_iff] at hs
  rw [mem_seqRun_iff]
  exact Or.inr ⟨hs.1, rowLoop_mem_of_none ctx _ _ _ L _ _ hs.2 row col hr hc⟩

theorem generateLevel_mem_dir (ctx : GenCtx) (normImg : PImage) (w h L : ℕ)
    (hts : ctx.tileSize ≠ 0) :
    Event.mkLevelDir L ∈ (generateLevel ctx normImg w h L).1 := by
  rw [generateLevel]
  simp only [hts, if_false]
  rw [mem_seqRun_iff]
  simp

theorem levelLoop_mem_of_none (ctx : GenCtx) (normImg : PImage) (w h : ℕ)
    (Ls : List ℕ) (hts : ctx.tileSize ≠ 0)
    (hs : (levelLoop ctx normImg w h Ls).2 = none)
    (L row col : ℕ) (hL : L ∈ Ls)
    (hr : row ∈ List.range (level_rows ctx.tileSize w h L))
    (hc : col ∈ List.range (level_cols ctx.tileSize w h L)) :
    Event.writeTile L col row ∈ (levelLoop ctx normImg w h Ls).1 := by
  induction Ls with
  | nil => simp at hL
  | cons L0 rest ih =>
    rw [levelLoop, seqRun_err_none_iff] at hs
    obtain ⟨h1, h2⟩ := hs
    rw [levelLoop, mem_seqRun_iff]
    rcases List.mem_cons.1 hL with rfl | hL2
    · exact Or.inl (generateLevel_mem_of_none ctx normImg w h L hts h1 row col hr hc)
    · exact Or.inr ⟨h1, ih h2 hL2⟩

theorem colLoop_err_some (ctx : GenCtx) (limg : PImage) (lw lh L row : ℕ)
    (cs : List ℕ) (er : RunError)
    (hs : (colLoop ctx limg lw lh L row cs).2 = some er) :
    ∃ msg, er = RunError.tileError msg
      ∧ ∃ col ∈ cs, attemptTile ctx limg lw lh L col row = some msg := by
  induction cs with
  | nil => simp [colLoop] at hs
  | cons c rest ih =>
    rw [colLoop] at hs
    cases h1 : (tileStep ctx limg lw lh L c row).2 with
    | none =>
      rw [seqRun_of_none h1] at hs
      obtain ⟨msg, hmsg, col, hcol, ha⟩ := ih hs
      exact ⟨msg, hmsg, col, by simp [hcol], ha⟩
    | some e0 =>
      rw [seqRun_of_some h1] at hs
      cases ha : attemptTile ctx limg lw lh L c row with
      | none => simp [tileStep, ha] at h1
      | some msg =>
        simp [tileStep, ha] at h1
        refine ⟨msg, ?_, c, by simp, ha⟩
        simp at hs
        rw [← hs, ← h1]

theorem rowLoop_err_some (ctx : GenCtx) (limg : PImage) (lw lh L cols : ℕ)
    (rs : List ℕ) (er : RunError)
    (hs : (rowLoop ctx limg lw lh L cols rs).2 = some er) :
    ∃ msg, er = RunError.tileError msg
      ∧ ∃ row ∈ rs, ∃ col ∈ List.range cols,
          attemptTile ctx limg lw lh L col row = some msg := by
  induction rs with
  | nil => simp [rowLoop] at hs
  | cons r rest ih =>
    rw [rowLoop] at hs
    cases h1 : (colLoop ctx limg lw lh L r (List.range cols)).2 with
    | none =>
      rw [seqRun_of_none h1] at hs
      obtain ⟨msg, hmsg, row, hrow, hrest⟩ := ih hs
      exact ⟨msg, hmsg, row, by simp [hrow], hrest⟩
    | some e0 =>
      rw [seqRun_of_some h1] at hs
      simp at hs
      subst hs
      obtain ⟨msg, hmsg, col, hcol, ha⟩ := colLoop_err_some ctx limg lw lh L r _ e0 h1
      exact ⟨msg, hmsg, r, by simp, col, hcol, ha⟩

theorem generateLevel_err_some (ctx : GenCtx) (normImg : PImage) (w h L : ℕ)
    (hts : ctx.tileSize ≠ 0) (er : RunError)
    (hs : (generateLevel ctx normImg w h L).2 = some er) :
    ∃ msg, er = RunError.tileError msg
      ∧ ∃ row ∈ List.range (level_rows ctx.tileSize w h L),
          ∃ col ∈ List.range (level_cols ctx.tileSize w h L),
          levelAttempt ctx normImg w h L col row = some msg := by
  rw [generateLevel] at hs
  simp only [hts, if_false] at hs
  rw [seqRun_of_none rfl] at hs
  simp only [] at hs
  obtain ⟨msg, hmsg, row, hrow, col, hcol, ha⟩ :=
    rowLoop_err_some ctx _ _ _ L _ _ er hs
  exact ⟨msg, hmsg, row, hrow, col, hcol, ha⟩

theorem levelLoop_err_some (ctx : GenCtx) (normImg : PImage) (w h : ℕ)
    (Ls : List ℕ) (hts : ctx.tileSize ≠ 0) (er : RunError)
    (hs : (levelLoop ctx normImg w h Ls).2 = some er) :
    ∃ msg, er = RunError.tileError msg
      ∧ ∃ L ∈ Ls, ∃ row ∈ List.range (level_rows ctx.tileSize w h L),
          ∃ col ∈ List.range (level_cols ctx.tileSize w h L),
          levelAttempt ctx normImg w h L col row = some msg := by
  induction Ls with
  | nil => simp [levelLoop] at hs
  | cons L rest ih =>
    rw [levelLoop] at hs
    cases h1 : (generateLevel ctx normImg w h L).2 with
    | none =>
      rw [seqRun_of_none h1] at hs
      obtain ⟨msg, hmsg, L2, hL2, hrest⟩ := ih hs
      exact ⟨msg, hmsg, L2, by simp [hL2], hrest⟩
    | some e0 =>
      rw [seqRun_of_some h1] at hs
      simp at hs
      subst hs
      obtain ⟨msg, hmsg, row, hrow, col, hcol, ha⟩ :=
        generateLevel_err_some ctx normImg w h L hts e0 h1
      exact ⟨msg, hmsg, L, by simp, row, hrow, col, hcol, ha⟩

theorem runLevels_def (ctx : GenCtx) (img : PImage) :
    runLevels ctx img
      = levelLoop ctx (normalizeMode ctx.codec img) img.width img.height
          (pyramid_levels img.width img.height) := rfl

theorem generate_some_unfold (ctx : GenCtx) (name : String) (img : PImage)
    (hd : ¬ (max img.width img.height = 0)) :
    generate ctx name (some img)
      = (Event.mkTilesDir ::
          (seqRun (runLevels ctx img)
            ([Event.writeDescriptor (mkDescriptor ctx name img.width img.height)], none)).1,
         match (seqRun (runLevels ctx img)
            ([Event.writeDescriptor (mkDescriptor ctx name img.width img.height)], none)).2 with
          | none => GenResult.ok
          | some e => GenResult.raised e) := by
  simp only [generate, if_neg hd, runLevels_def]
  rw [seqRun_of_none (rfl : (([Event.mkTilesDir], (none : Option RunError))).2 = none)]
  simp

theorem generate_of_levels_none (ctx : GenCtx) (name : String) (img : PImage)
    (hd : ¬ (max img.width img.height = 0))
    (hLL : (runLevels ctx img).2 = none) :
    generate ctx name (some img)
      = (Event.mkTilesDir :: ((runLevels ctx img).1
          ++ [Event.writeDescriptor (mkDescriptor ctx name img.width img.height)]),
        GenResult.ok) := by
  rw [generate_some_unfold ctx name img hd, seqRun_of_none hLL]

theorem generate_of_levels_some (ctx : GenCtx) (name : String) (img : PImage)
    (hd : ¬ (max img.width img.height = 0)) (e : RunError)
    (hLL : (runLevels ctx img).2 = some e) :
    generate ctx name (some img)
      = (Event.mkTilesDir :: (runLevels ctx img).1, GenResult.raised e) := by
  rw [generate_some_unfold ctx name img hd, seqRun_of_some hLL]

/-- Claim C4: for every successful generation run, the width and
height written into the descriptor equal the original source image's
pixel dimensions read at generation start — never a resampled level's
dimensions — for every configuration (tile size, overlap, format). -/
theorem claim_C4 (ctx : GenCtx) (name : String) (img : PImage) (d : Descriptor)
    (hmem : Event.writeDescriptor d ∈ (generate ctx name (some img)).1) :
    d = mkDescriptor ctx name img.width img.height
    ∧ d.width = img.width ∧ d.height = img.height := by
  by_cases hd : max img.width img.height = 0
  · simp [generate, hd] at hmem
  · cases hLL : (runLevels ctx img).2 with
    | none =>
      rw [generate_of_levels_none ctx name img hd hLL] at hmem
      simp at hmem
      rcases hmem with hmem | hmem
      · exact absurd hmem (by rw [runLevels_def]; exact levelLoop_no_desc ctx _ _ _ _ d)
      · exact ⟨hmem, by rw [hmem]; exact ⟨rfl, rfl⟩⟩
    | some e =>
      rw [generate_of_levels_some ctx name img hd e hLL] at hmem
      simp at hmem
      exact absurd hmem (by rw [runLevels_def]; exact levelLoop_no_desc ctx _ _ _ _ d)

theorem claim_C4_witness :
    (mkDescriptor baseCtx "out" 2 2).width = img2.width
    ∧ (mkDescriptor baseCtx "out" 2 2).height = img2.height :=
  ⟨(claim_C4 baseCtx "out" img2 (mkDescriptor baseCtx "out" 2 2) (by decide)).2.1,
   (claim_C4 baseCtx "out" img2 (mkDescriptor baseCtx "out" 2 2) (by decide)).2.2⟩

theorem levelLoop_not_desc (ctx : GenCtx) (normImg : PImage) (w h : ℕ) (Ls : List ℕ) :
    ∀ e ∈ (levelLoop ctx normImg w h Ls).1, isDescEvent e = false := by
  intro e he
  obtain ⟨L, _, h1 | ⟨r, _, c2, _, h2, _⟩⟩ := levelLoop_mem_events ctx normImg w h Ls e he
  · subst h1; rfl
  · subst h2; rfl

theorem generateLevel_ts_ne_zero (ctx : GenCtx) (normImg : PImage) (w h L : ℕ)
    (hs : (generateLevel ctx normImg w h L).2 = none) : ctx.tileSize ≠ 0 := by
  intro h0
  rw [generateLevel] at hs
  simp [h0] at hs

theorem runLevels_ts_ne_zero (ctx : GenCtx) (img : PImage)
    (hLL : (runLevels ctx img).2 = none) : ctx.tileSize ≠ 0 := by
  rw [runLevels_def, pyramid_levels, List.range_succ_eq_map, levelLoop,
    seqRun_err_none_iff] at hLL
  exact generateLevel_ts_ne_zero ctx _ _ _ 0 hLL.1

/-- Claim C5: in every run the descriptor is written at most once;
when it is present it is the final event of a successful run and every
tile of every planned level was written; and whenever the run raises
(in particular on a failed tile write) no descriptor event is in the
trace. -/
theorem claim_C5 (ctx : GenCtx) (name : String) (src : Option PImage) :
    ((generate ctx name src).1.filter isDescEvent).length ≤ 1
    ∧ (∀ d, Event.writeDescriptor d ∈ (generate ctx name src).1 →
        (generate ctx name src).2 = GenResult.ok
        ∧ (generate ctx name src).1.getLast? = some (Event.writeDescriptor d)
        ∧ ∀ img, src = some img →
            ∀ L ∈ pyramid_levels img.width img.height,
            ∀ row ∈ List.range (level_rows ctx.tileSize img.width img.height L),
            ∀ col ∈ List.range (level_cols ctx.tileSize img.width img.height L),
            Event.writeTile L col row ∈ (generate ctx name src).1)
    ∧ (∀ e, (generate ctx name src).2 = GenResult.raised e →
        ∀ d, Event.writeDescriptor d ∉ (generate ctx name src).1) := by
  cases src with
  | none =>
    refine ⟨by simp [generate], ?_, ?_⟩
    · intro d hd
      simp [generate] at hd
    · intro e he
      simp [generate] at he
  | some img =>
    by_cases hd : max img.width img.height = 0
    · refine ⟨by simp [generate, hd], ?_, ?_⟩
      · intro d hdm
        simp [generate, hd] at hdm
      · intro e _ d
        simp [generate, hd]
    · cases hLL : (runLevels ctx img).2 with
      | some e0 =>
        rw [generate_of_levels_some ctx name img hd e0 hLL]
        have hnodesc : ∀ d, Event.writeDescriptor d ∉
            Event.mkTilesDir :: (runLevels ctx img).1 := by
          intro d hmem
          rcases List.mem_cons.1 hmem with h1 | h2
          · exact Event.noConfusion h1
          · rw [runLevels_def] at h2
            exact levelLoop_no_desc ctx _ _ _ _ d h2
        refine ⟨?_, ?_, ?_⟩
        · have hnil : ((Event.mkTilesDir :: (runLevels ctx img).1).filter isDescEvent)
              = [] := by
            rw [List.filter_eq_nil_iff]
            intro a ha
            rcases List.mem_cons.1 ha with rfl | ha2
            · simp [isDescEvent]
            · rw [runLevels_def] at ha2
              simp [levelLoop_not_desc ctx _ _ _ _ a ha2]
          simp [hnil]
        · intro d hdm
          exact absurd hdm (hnodesc d)
        · intro e1 _ d
          exact hnodesc d
      | none =>
        have hts : ctx.tileSize ≠ 0 := runLevels_ts_ne_zero ctx img hLL
        rw [generate_of_levels_none ctx name img hd hLL]
        refine ⟨?_, ?_, ?_⟩
        · have hnil : ((runLevels ctx img).1.filter isDescEvent) = [] := by
            rw [List.filter_eq_nil_iff]
            intro a ha
            rw [runLevels_def] at ha
            simp [levelLoop_not_desc ctx _ _ _ _ a ha]
          simp [List.filter_append, hnil, isDescEvent]
        · intro d hdm
          have hdeq : d = mkDescriptor ctx name img.width img.height := by
            rcases List.mem_cons.1 hdm with h1 | h2
            · exact Event.noConfusion h1
            · rcases List.mem_append.1 h2 with h3 | h4
              · rw [runLevels_def] at h3
                exact absurd h3 (levelLoop_no_desc ctx _ _ _ _ d)
              · simp at h4
                exact h4
          subst hdeq
          refine ⟨rfl, ?_, ?_⟩
          · rw [← List.cons_append, List.getLast?_concat]
          · intro img2 himg2 L hL row hrow col hcol
            injection himg2 with h5
            subst h5
            have hmem : Event.writeTile L col row ∈ (runLevels ctx img).1 := by
              rw [runLevels_def]
              exact levelLoop_mem_of_none ctx _ _ _ _ hts
                (by rw [runLevels_def] at hLL; exact hLL) L row col hL hrow hcol
            exact List.mem_cons.2 (Or.inr (List.mem_append.2 (Or.inl hmem)))
        · intro e1 he1
          exact absurd he1 (by simp)

theorem claim_C5_witness :
    ((generate baseCtx "out" (some img2)).1.filter isDescEvent).length ≤ 1
    ∧ (generate baseCtx "out" (some img2)).1.getLast?
        = some (Event.writeDescriptor (mkDescriptor baseCtx "out" 2 2)) :=
  ⟨(claim_C5 baseCtx "out" (some img2)).1,
   ((claim_C5 baseCtx "out" (some img2)).2.1 (mkDescriptor baseCtx "out" 2 2)
      (by decide)).2.1⟩

/-- Claim C6 counterexample: with tile size 0 and a 4 by 4 source, the
generator does not reject the configuration before level planning: it
computes `max_level`, creates the output directory, and then raises a
division-by-zero error from the tile-grid computation. -/
theorem claim_C6_counterexample :
    (generate ctxTs0 "out" (some img4)).1 = [Event.mkTilesDir]
    ∧ (generate ctxTs0 "out" (some img4)).2
        = GenResult.raised RunError.zeroDivisionError
    ∧ max_level img4.width img4.height = 2 := by
  refine ⟨by decide, by decide, by decide⟩

/-- Claim C6 amended: the generator performs no precondition
validation.  With zero source dimensions, `max_level` computation
raises a math-domain error before any directory is created; with zero
tile size and a nonzero source dimension, `max_level` is computed and
the output directory is created, and the run then raises a
division-by-zero error while computing the first level's tile grid,
before creating any level directory or writing any tile. -/
theorem claim_C6_amended (ctx : GenCtx) (name : String) (img : PImage) :
    (img.width = 0 ∧ img.height = 0 →
      generate ctx name (some img) = ([], GenResult.raised RunError.log2DomainError))
    ∧ (ctx.tileSize = 0 → ¬ (max img.width img.height = 0) →
      generate ctx name (some img)
        = ([Event.mkTilesDir], GenResult.raised RunError.zeroDivisionError)) := by
  constructor
  · rintro ⟨hw, hh⟩
    simp [generate, hw, hh]
  · intro hts hd
    have hgl : generateLevel ctx (normalizeMode ctx.codec img) img.width img.height 0
        = ([], some RunError.zeroDivisionError) := by
      rw [generateLevel]
      simp [hts]
    have hLL : runLevels ctx img = ([], some RunError.zeroDivisionError) := by
      rw [runLevels_def, pyramid_levels, List.range_succ_eq_map, levelLoop, hgl,
        seqRun_of_some rfl]
    rw [generate_of_levels_some ctx name img hd RunError.zeroDivisionError
      (by rw [hLL]), hLL]

theorem claim_C6_witness :
    generate ctxTs0 "out" (some img0)
      = ([], GenResult.raised RunError.log2DomainError)
    ∧ generate ctxTs0 "out" (some img4)
      = ([Event.mkTilesDir], GenResult.raised RunError.zeroDivisionError) :=
  ⟨(claim_C6_amended ctxTs0 "out" img0).1 ⟨rfl, rfl⟩,
   (claim_C6_amended ctxTs0 "out" img4).2 rfl (by decide)⟩

/-- Claim C7 counterexample: two runs that fail at different tiles —
one at `(level 1, col 0, row 0)`, the other at `(level 1, col 1,
row 0)` — with the same underlying save error produce the same raised
outcome, so the surfaced failure does not report which `(level, col,
row)` failed; the two runs are distinguishable only by their traces. -/
theorem claim_C7_counterexample :
    failSaveA 1 0 0 img2 = some "disk full"
    ∧ failSaveB 1 1 0 img2 = some "disk full"
    ∧ (generate ctxFailA "o" (some img2)).1 ≠ (generate ctxFailB "o" (some img2)).1
    ∧ (generate ctxFailA "o" (some img2)).2
        = GenResult.raised (RunError.tileError "disk full")
    ∧ (generate ctxFailB "o" (some img2)).2
        = GenResult.raised (RunError.tileError "disk full") := by
  refine ⟨by decide, by decide, by decide, by decide, by decide⟩

/-- Claim C7 amended: a tile encode/write failure is fatal to the
whole run and surfaced immediately — if any planned tile's save fails
the run raises a tile error and no descriptor is written; the raised
error is the underlying save failure's message unchanged (the
generator does not attach the failing coordinates); and a tile whose
save failed is never recorded as written. -/
theorem claim_C7_amended (ctx : GenCtx) (name : String) (img : PImage)
    (hts : ctx.tileSize ≠ 0) (hd : ¬ (max img.width img.height = 0)) :
    ((∃ L ∈ pyramid_levels img.width img.height,
        ∃ row ∈ List.range (level_rows ctx.tileSize img.width img.height L),
        ∃ col ∈ List.range (level_cols ctx.tileSize img.width img.height L),
        levelAttempt ctx (normalizeMode ctx.codec img) img.width img.height L col row
          ≠ none) →
      ∃ msg, (generate ctx name (some img)).2
          = GenResult.raised (RunError.tileError msg)
        ∧ ∀ d, Event.writeDescriptor d ∉ (generate ctx name (some img)).1)
    ∧ (∀ msg, (generate ctx name (some img)).2
          = GenResult.raised (RunError.tileError msg) →
        ∃ L ∈ pyramid_levels img.width img.height,
        ∃ row ∈ List.range (level_rows ctx.tileSize img.width img.height L),
        ∃ col ∈ List.range (level_cols ctx.tileSize img.width img.height L),
        levelAttempt ctx (normalizeMode ctx.codec img) img.width img.height L col row
          = some msg)
    ∧ (∀ L col row,
        Event.writeTile L col row ∈ (generate ctx name (some img)).1 →
        levelAttempt ctx (normalizeMode ctx.codec img) img.width img.height L col row
          = none) := by
  refine ⟨?_, ?_, ?_⟩
  · rintro ⟨L, hL, row, hrow, col, hcol, hfail⟩
    cases hLL : (runLevels ctx img).2 with
    | none =>
      exfalso
      rw [runLevels_def, levelLoop_err_none_iff ctx _ _ _ hts] at hLL
      exact hfail (hLL L hL row hrow col hcol)
    | some e0 =>
      obtain ⟨msg, rfl, _⟩ := levelLoop_err_some ctx _ _ _ _ hts e0
        (by rw [runLevels_def] at hLL; exact hLL)
      refine ⟨msg, ?_, ?_⟩
      · rw [generate_of_levels_some ctx name img hd _ hLL]
      · intro d hdm
        rw [generate_of_levels_some ctx name img hd _ hLL] at hdm
        rcases List.mem_cons.1 hdm with h1 | h2
        · exact Event.noConfusion h1
        · rw [runLevels_def] at h2
          exact levelLoop_no_desc ctx _ _ _ _ d h2
  · intro msg hres
    cases hLL : (runLevels ctx img).2 with
    | none =>
      rw [generate_of_levels_none ctx name img hd hLL] at hres
      exact absurd hres (by simp)
    | some e0 =>
      rw [generate_of_levels_some ctx name img hd e0 hLL] at hres
      simp at hres
      subst hres
      obtain ⟨msg2, hmsg2, L, hL, row, hrow, col, hcol, ha⟩ :=
        levelLoop_err_some ctx _ _ _ _ hts _
          (by rw [runLevels_def] at hLL; exact hLL)
      obtain rfl : msg2 = msg := by
        cases hmsg2
        rfl
      exact ⟨L, hL, row, hrow, col, hcol, ha⟩
  · intro L col row hmem
    have hmem2 : Event.writeTile L col row ∈ (runLevels ctx img).1 := by
      cases hLL : (runLevels ctx img).2 with
      | none =>
        rw [generate_of_levels_none ctx name img hd hLL] at hmem
        rcases List.mem_cons.1 hmem with h1 | h2
        · exact absurd h1 (by simp)
        · rcases List.mem_append.1 h2 with h3 | h4
          · exact h3
          · simp at h4
      | some e0 =>
        rw [generate_of_levels_some ctx name img hd e0 hLL] at hmem
        rcases List.mem_cons.1 hmem with h1 | h2
        · exact absurd h1 (by simp)
        · exact h2
    rw [runLevels_def] at hmem2
    exact levelLoop_writeTile_attempt ctx _ _ _ _ L col row hmem2

theorem claim_C7_witness :
    ∃ msg, (generate ctxFailA "o" (some img2)).2
        = GenResult.raised (RunError.tileError msg)
      ∧ ∀ d, Event.writeDescriptor d ∉ (generate ctxFailA "o" (some img2)).1 :=
  (claim_C7_amended ctxFailA "o" img2 (by decide) (by decide)).1
    ⟨1, by decide, 0, by decide, 0, by decide, by decide⟩

theorem muldiv255_zero_left (y : ℕ) : muldiv255 0 y = 0 := by
  simp [muldiv255]

theorem muldiv255_zero_right (x : ℕ) : muldiv255 x 0 = 0 := by
  simp [muldiv255]

theorem cropTile_mode (img : PImage) (ts ov col row lw lh : ℕ) :
    (cropTile img ts ov col row lw lh).mode = img.mode := rfl

theorem levelImage_mode (c : Codec) (n : PImage) (w h L : ℕ) :
    (levelImage c n w h L).mode = n.mode := by
  rw [levelImage]
  split <;> rfl

theorem savedTile_eq_crop (c : Codec) (fmt : String) (img : PImage)
    (hmode : img.mode = PMode.RGB ∨ img.mode = PMode.L) (ts ov col row lw lh : ℕ) :
    savedTile c fmt img ts ov col row lw lh = cropTile img ts ov col row lw lh := by
  have hcond : ¬ ((cropTile img ts ov col row lw lh).mode ≠ PMode.RGB
      ∧ (cropTile img ts ov col row lw lh).mode ≠ PMode.L) := by
    rw [cropTile_mode]
    rcases hmode with hm | hm <;> simp [hm]
  simp only [savedTile]
  rw [if_neg hcond]
  split <;> rfl

/-- Claim C8: color-mode normalization is applied exactly once, before
any level or tile is produced: a mode outside the RGB/RGBA/L allow-list
is converted to RGB, an RGBA image is composited onto an opaque black
background using its own alpha channel as mask — so fully transparent
source pixels become solid black — and after normalization the working
image's mode is RGB or L for every level, so the per-tile jpeg mode
conversion in `_save_tile` never fires: every saved tile is the raw
clamped crop of its level's image. -/
theorem claim_C8 (c : Codec) (img : PImage) :
    ((normalizeMode c img).mode = PMode.RGB ∨ (normalizeMode c img).mode = PMode.L)
    ∧ (img.mode ≠ PMode.RGB → img.mode ≠ PMode.RGBA → img.mode ≠ PMode.L →
        normalizeMode c img = convertRGB c img)
    ∧ (img.mode = PMode.RGBA → normalizeMode c img = compositeOnBlack img)
    ∧ ((img.mode = PMode.RGB ∨ img.mode = PMode.L) → normalizeMode c img = img)
    ∧ (img.mode = PMode.RGBA → ∀ x y, (img.px x y).a = 0 →
        (normalizeMode c img).px x y = { r := 0, g := 0, b := 0, a := 255 })
    ∧ (∀ w h, levelImage c (normalizeMode c img) w h (max_level w h)
        = normalizeMode c img)
    ∧ (∀ w h L, (levelImage c (normalizeMode c img) w h L).mode
        = (normalizeMode c img).mode)
    ∧ (∀ fmt w h L ts ov col row lw lh,
        savedTile c fmt (levelImage c (normalizeMode c img) w h L) ts ov col row lw lh
          = cropTile (levelImage c (normalizeMode c img) w h L) ts ov col row lw lh)
    ∧ (img.mode = PMode.RGBA → ∀ (ts ov col row lw lh x y : ℕ),
        (img.px
            ((clamp_rect (lw : ℤ) (lh : ℤ)
              (crop_rect (ts : ℤ) (ov : ℤ) (col : ℤ) (row : ℤ))).1.toNat + x)
            ((clamp_rect (lw : ℤ) (lh : ℤ)
              (crop_rect (ts : ℤ) (ov : ℤ) (col : ℤ) (row : ℤ))).2.1.toNat + y)).a = 0 →
        (cropTile (normalizeMode c img) ts ov col row lw lh).px x y
          = { r := 0, g := 0, b := 0, a := 255 }) := by
  have hmode : (normalizeMode c img).mode = PMode.RGB
      ∨ (normalizeMode c img).mode = PMode.L := by
    cases him : img.mode <;> simp [normalizeMode, him, convertRGB, compositeOnBlack]
  refine ⟨hmode, ?_, ?_, ?_, ?_, ?_, ?_, ?_, ?_⟩
  · intro h1 h2 h3
    rw [normalizeMode, if_pos ⟨h1, h2, h3⟩]
  · intro hR
    rw [normalizeMode, if_neg (by simp [hR]), if_pos hR]
  · rintro (hR | hL)
    · rw [normalizeMode, if_neg (by simp [hR]), if_neg (by simp [hR])]
    · rw [normalizeMode, if_neg (by simp [hL]), if_neg (by simp [hL])]
  · intro hR x y ha
    rw [normalizeMode, if_neg (by simp [hR]), if_pos hR]
    simp [compositeOnBlack, ha, muldiv255_zero_left, muldiv255_zero_right]
  · intro w h
    rw [levelImage, if_pos rfl]
  · intro w h L
    exact levelImage_mode c _ w h L
  · intro fmt w h L ts ov col row lw lh
    refine savedTile_eq_crop c fmt _ ?_ ts ov col row lw lh
    rw [levelImage_mode]
    exact hmode
  · intro hR ts ov col row lw lh x y ha
    rw [normalizeMode, if_neg (by simp [hR]), if_pos hR]
    simp only [cropTile, cropImg, compositeOnBlack]
    simp [ha, muldiv255_zero_left, muldiv255_zero_right]

theorem claim_C8_witness :
    imgT.mode = PMode.RGBA
    ∧ (imgT.px 0 0).a = 0
    ∧ (normalizeMode trivialCodec imgT).px 0 0 = { r := 0, g := 0, b := 0, a := 255 } :=
  ⟨rfl, rfl, (claim_C8 trivialCodec imgT).2.2.2.2.1 rfl 0 0 rfl⟩

theorem parseNatAux_append (xs ys : List Char) : ∀ acc,
    parseNatAux acc (xs ++ ys)
      = match parseNatAux acc xs with
        | some a => parseNatAux a ys
        | none => none := by
  induction xs with
  | nil =>
    intro acc
    simp [parseNatAux]
  | cons c rest ih =>
    intro acc
    simp only [List.cons_append, parseNatAux]
    cases hc : parseDigit c with
    | none => rfl
    | some d => exact ih _

theorem parseDigit_digitChar (d : ℕ) (hd : d < 10) :
    parseDigit (digitChar d) = some d := by
  interval_cases d <;> decide

theorem parseNatAux_natDigits (n : ℕ) : ∀ acc,
    parseNatAux acc (natDigits n) = some (acc * 10 ^ (natDigits n).length + n) := by
  induction n using Nat.strong_induction_on with
  | _ n ih =>
    intro acc
    by_cases h : n < 10
    · rw [natDigits, dif_pos h]
      simp [parseNatAux, parseDigit_digitChar n h]
    · have hlen : (natDigits n).length = (natDigits (n / 10)).length + 1 := by
        rw [natDigits, dif_neg h]
        simp
      rw [hlen, natDigits, dif_neg h, parseNatAux_append,
        ih (n / 10) (Nat.div_lt_self (by omega) (by omega)) acc]
      simp only [parseNatAux, parseDigit_digitChar (n % 10) (Nat.mod_lt n (by omega)),
        Option.some.injEq]
      rw [pow_succ, Nat.add_mul, Nat.mul_assoc, Nat.add_assoc]
      congr 1
      omega

theorem natDigits_ne_nil (n : ℕ) : natDigits n ≠ [] := by
  rw [natDigits]
  split
  · simp
  · simp

theorem pyInt_natDigits (n : ℕ) : pyInt (natDigits n) = some n := by
  have h := parseNatAux_natDigits n 0
  rw [zero_mul, zero_add] at h
  cases hnd : natDigits n with
  | nil => exact absurd hnd (natDigits_ne_nil n)
  | cons c rest =>
    rw [hnd] at h
    simpa [pyInt] using h

/-- Claim C9: writing a descriptor with any width, height, tile size,
overlap and format through the descriptor writer and parsing the
resulting document with the diagnostic tool's parser yields back
exactly the same width, height, tile size, overlap and format. -/
theorem claim_C9 (w h ts ov : ℕ) (fmt url : String) :
    diagnoseParse (descriptorXml
        { format := fmt, overlap := ov, tileSize := ts,
          width := w, height := h, url := url })
      = some (w, h, ts, ov, fmt.data) := by
  simp [diagnoseParse, descriptorXml, XElem.find, XElem.children, XElem.tag,
    XElem.getA, XElem.attrs, pyInt_natDigits]

/-- Claim C10: when the reference image file exists but cannot be
opened or decoded, `check_original_image` returns the pair
`(None, None)`; that pair is truthy, so `compare_dimensions` proceeds
with the comparison instead of aborting, the comparison declares a
mismatch, and computing the coverage percentage then multiplies `None`
values, reaching an unguarded `TypeError` rather than reporting the
read failure and stopping. -/
theorem claim_C10 :
    check_original_image true none = OrigCheck.readError
    ∧ origTruthy (check_original_image true none) = true
    ∧ compare_dimensions (some (1000, 1000)) (check_original_image true none)
        = Except.error "TypeError" :=
  ⟨rfl, rfl, rfl⟩
